import Mathlib

/-!
# Verification of the geospatial-primer notebook workflow

A shallow embedding of the recurring load → reproject → filter/aggregate →
visualize workflow taught by the notebooks of this repository.  The
notebooks contain no algorithmic code of their own: every operation they
exercise (group-by aggregation, polygon validity, spatial predicates,
coordinate reprojection, raster resampling and masking, file loading) is a
call into an external library.  Each such operation is therefore modelled
here from the spec's contract for it, faithfully to the spec's words, and
specialised to the exact call shapes appearing in the notebook cells.
-/

namespace Geoprimer

/-! ## Tabular frames and group-by aggregation (01-Pandas.ipynb)

A tabular frame restricted to the two columns exercised by the cited cells:
a categorical grouping key (the `Sex` column) and a numeric column that may
hold missing values (`Survived`/`Age`), a missing entry being `none`. -/

abbrev Row := String × Option ℚ

/-- The sort order on category values: lexicographic on the underlying
character sequences (the order in which the library sorts group keys). -/
def strLe (a b : String) : Prop := a.data ≤ b.data

instance : DecidableRel strLe :=
  fun a b => inferInstanceAs (Decidable (a.data ≤ b.data))

instance : IsTotal String strLe := ⟨fun a b => le_total a.data b.data⟩

instance : IsTrans String strLe := ⟨fun _ _ _ => le_trans⟩

/-- The grouping keys occurring in the frame, one occurrence each. -/
def keysOf (rows : List Row) : List String :=
  (rows.map Prod.fst).dedup

/-- Modelled from the spec: group-by on a categorical key returns its
groups "in key-sort … order", so the distinct keys are sorted. -/
def sortedKeys (rows : List Row) : List String :=
  List.insertionSort strLe (keysOf rows)

/-- The column entries of the group belonging to key `k`. -/
def valuesFor (k : String) (rows : List Row) : List (Option ℚ) :=
  (rows.filter (fun r => r.1 == k)).map Prod.snd

/-- The entries of a column that are not missing. -/
def present (vals : List (Option ℚ)) : List ℚ :=
  vals.filterMap id

/-- Modelled from the spec: the `mean` reduction of the group-and-aggregate
contract; as in the underlying library it skips missing entries and is
undefined (missing) on a group with no present entry. -/
def meanAgg (vals : List (Option ℚ)) : Option ℚ :=
  if (present vals).length = 0 then none
  else some ((present vals).sum / (present vals).length)

/-- The explicit reduction `lambda grp: grp.sum() / len(grp)` of the second
cited cell: the sum skips missing entries while `len` counts every row of
the group. -/
def sumDivLenAgg (vals : List (Option ℚ)) : Option ℚ :=
  if vals.length = 0 then none
  else some ((present vals).sum / vals.length)

/-- Modelled from the spec: `df.groupby("Sex")[col].mean()` — partition the
rows by the key column, reduce each partition by `mean`, one output row per
distinct key, in key-sort order. -/
def groupbyMean (rows : List Row) : List (String × Option ℚ) :=
  (sortedKeys rows).map (fun k => (k, meanAgg (valuesFor k rows)))

/-- The cell `df.groupby("Sex")[col].aggregate(lambda grp: grp.sum() / len(grp))`
of the notebook. -/
def groupbySumDivLen (rows : List Row) : List (String × Option ℚ) :=
  (sortedKeys rows).map (fun k => (k, sumDivLenAgg (valuesFor k rows)))

/-- A titanic-like miniature of the cited frame: key column `Sex` with the
two observed categories, numeric column `Survived`. -/
def titanicMini : List Row :=
  [("male", some 0), ("female", some 1), ("female", some 1),
   ("male", some 0), ("male", some 1)]

theorem keysOf_groupbyMean (rows : List Row) :
    (groupbyMean rows).map Prod.fst = sortedKeys rows := by
  unfold groupbyMean
  rw [List.map_map]
  exact List.map_id _ ▸ rfl

/-- C1 -- Grouping by a categorical column and aggregating by mean yields
exactly one output row per distinct key present in the frame (the output
keys are exactly the observed keys, without repetition), ordered by key
sort order; on the titanic-like frame grouped by `Sex` this is exactly two
rows, keyed by the two observed categories. -/
theorem groupbyMean_one_row_per_category :
    (∀ rows : List Row,
      ((groupbyMean rows).map Prod.fst).Nodup ∧
      List.Sorted strLe ((groupbyMean rows).map Prod.fst) ∧
      (∀ k, k ∈ (groupbyMean rows).map Prod.fst ↔ k ∈ rows.map Prod.fst)) ∧
    (groupbyMean titanicMini).map Prod.fst = ["female", "male"] ∧
    (groupbyMean titanicMini).length = 2 := by
  refine ⟨fun rows => ⟨?_, ?_, ?_⟩, by decide, by decide⟩
  · rw [keysOf_groupbyMean]
    exact (List.perm_insertionSort strLe (keysOf rows)).nodup_iff.mpr
      ((rows.map Prod.fst).nodup_dedup)
  · rw [keysOf_groupbyMean]
    exact List.sorted_insertionSort strLe (keysOf rows)
  · intro k
    rw [keysOf_groupbyMean]
    rw [sortedKeys, (List.perm_insertionSort strLe (keysOf rows)).mem_iff]
    exact List.mem_dedup

/-- A frame whose `Survived` column has a missing entry in the `male`
group: the built-in mean skips the missing entry, while `sum / len`
divides by the full group size. -/
def titanicMissing : List Row :=
  [("male", some 1), ("male", none), ("female", some 1)]

theorem groupbyMean_titanicMissing_eval :
    groupbyMean titanicMissing = [("female", some 1), ("male", some 1)] := by
  norm_num +decide [groupbyMean, sortedKeys, keysOf, valuesFor, meanAgg, present,
    titanicMissing, List.insertionSort, List.orderedInsert, strLe,
    List.filterMap_cons, List.sum_cons]

theorem groupbySumDivLen_titanicMissing_eval :
    groupbySumDivLen titanicMissing
      = [("female", some 1), ("male", some (1 / 2))] := by
  norm_num +decide [groupbySumDivLen, sortedKeys, keysOf, valuesFor, sumDivLenAgg, present,
    titanicMissing, List.insertionSort, List.orderedInsert, strLe,
    List.filterMap_cons, List.sum_cons]

/-- C10 (counterexample) -- on a frame with a missing entry in one group,
`groupby.mean` and `groupby.aggregate(sum / len)` disagree: the `male`
group has mean 1 but sum-divided-by-length 1/2. -/
theorem groupbyMean_ne_sumDivLen_on_missing :
    groupbyMean titanicMissing ≠ groupbySumDivLen titanicMissing := by
  rw [groupbyMean_titanicMissing_eval, groupbySumDivLen_titanicMissing_eval]
  intro h
  have h2 := List.head_eq_of_cons_eq (List.tail_eq_of_cons_eq h)
  have : (1 : ℚ) = 1 / 2 := by
    simpa using congrArg Prod.snd h2
  norm_num at this

theorem present_length_of_all_isSome (vals : List (Option ℚ))
    (h : ∀ v ∈ vals, v.isSome) : (present vals).length = vals.length := by
  induction vals with
  | nil => rfl
  | cons v vs ih =>
    cases v with
    | none => exact absurd (h none (by simp)) (by simp)
    | some q =>
      simp only [present, List.filterMap_cons, id, List.length_cons] at *
      rw [ih (fun v hv => h v (by simp [hv]))]

theorem meanAgg_eq_sumDivLenAgg_of_all_isSome (vals : List (Option ℚ))
    (h : ∀ v ∈ vals, v.isSome) : meanAgg vals = sumDivLenAgg vals := by
  unfold meanAgg sumDivLenAgg
  rw [present_length_of_all_isSome vals h]

/-- C10 (amended) -- on every frame whose aggregated column has no missing
entries, the built-in mean reduction and the explicit
sum-divided-by-length reduction produce the same grouped result. -/
theorem groupbyMean_eq_sumDivLen_of_no_missing (rows : List Row)
    (h : ∀ r ∈ rows, (Prod.snd r).isSome) :
    groupbyMean rows = groupbySumDivLen rows := by
  unfold groupbyMean groupbySumDivLen
  refine List.map_congr_left (fun k _ => ?_)
  have hv : ∀ v ∈ valuesFor k rows, v.isSome := by
    intro v hvmem
    simp only [valuesFor, List.mem_map, List.mem_filter] at hvmem
    obtain ⟨r, ⟨hr, _⟩, hrv⟩ := hvmem
    exact hrv ▸ h r hr
  rw [meanAgg_eq_sumDivLenAgg_of_all_isSome _ hv]

/-- C10 (witness) -- on the titanic-like frame, which has no missing
`Survived` entries, the two reductions agree. -/
theorem groupbyMean_eq_sumDivLen_witness :
    groupbyMean titanicMini = groupbySumDivLen titanicMini :=
  groupbyMean_eq_sumDivLen_of_no_missing titanicMini (by decide)

/-! ## Polygon validity (03-Shapely.ipynb)

The validity check exercised by the notebook on integer-coordinate rings.
Modelled from the spec: "invalid-geometry errors (self-intersecting
polygons, detected via an explicit validity check)" — a ring is valid
exactly when no two non-adjacent edges meet. -/

abbrev IPoint := ℤ × ℤ

/-- Twice the signed area of the triangle `o a b`. -/
def crossZ (o a b : IPoint) : ℤ :=
  (a.1 - o.1) * (b.2 - o.2) - (a.2 - o.2) * (b.1 - o.1)

/-- Point `r` lies in the closed coordinate box spanned by `p` and `q`. -/
def inBox (p q r : IPoint) : Bool :=
  decide (min p.1 q.1 ≤ r.1) && decide (r.1 ≤ max p.1 q.1) &&
  decide (min p.2 q.2 ≤ r.2) && decide (r.2 ≤ max p.2 q.2)

/-- Closed segments `p q` and `r s` share at least one point: either they
properly cross (strict orientation tests) or an endpoint of one lies on
the other. -/
def segIntersect (p q r s : IPoint) : Bool :=
  let d1 := crossZ r s p
  let d2 := crossZ r s q
  let d3 := crossZ p q r
  let d4 := crossZ p q s
  (((decide (0 < d1) && decide (d2 < 0)) || (decide (d1 < 0) && decide (0 < d2))) &&
   ((decide (0 < d3) && decide (d4 < 0)) || (decide (d3 < 0) && decide (0 < d4)))) ||
  (decide (d1 = 0) && inBox r s p) || (decide (d2 = 0) && inBox r s q) ||
  (decide (d3 = 0) && inBox p q r) || (decide (d4 = 0) && inBox p q s)

/-- The edges of a ring given, as in the notebook, with its closing point
repeated (`[(0,0), …, (0,0)]`). -/
def edgesOf (pts : List IPoint) : List (IPoint × IPoint) := pts.zip pts.tail

/-- Modelled from the spec: `polygon.is_valid` — the ring is simple, i.e.
no two of its non-adjacent edges intersect (an edge is adjacent to its
cyclic successor, the last edge being adjacent to the first). -/
def Polygon.is_valid (pts : List IPoint) : Bool :=
  let es := edgesOf pts
  let n := es.length
  (List.range n).all fun i => (List.range n).all fun j =>
    if i < j ∧ j ≠ i + 1 ∧ ¬(i = 0 ∧ j = n - 1) then
      !(segIntersect (es.getD i ((0, 0), (0, 0))).1 (es.getD i ((0, 0), (0, 0))).2
        (es.getD j ((0, 0), (0, 0))).1 (es.getD j ((0, 0), (0, 0))).2)
    else true

/-- C2 -- the notebook's first point order `[(0,0),(2,2),(0,2),(2,0),(0,0)]`
is self-intersecting and the validity check reports invalid; after
reordering the same points into the simple ring
`[(0,0),(0,2),(2,2),(2,0),(0,0)]` the check reports valid. -/
theorem is_valid_bowtie_false_square_true :
    Polygon.is_valid [(0, 0), (2, 2), (0, 2), (2, 0), (0, 0)] = false ∧
    Polygon.is_valid [(0, 0), (0, 2), (2, 2), (2, 0), (0, 0)] = true := by
  decide

/-! ## The `within` spatial predicate (03-Shapely.ipynb)

Point-in-polygon evaluation over rational coordinates, by the even-odd ray
rule: a point is `within` a polygon when it lies on an odd number of edge
crossings of its rightward ray and not on the polygon's boundary (the
spec's "the interior of the first object is completely contained by the
second", specialised to a point argument). -/

abbrev QPoint := ℚ × ℚ

/-- Twice the signed area of the triangle `o a b`, rational version. -/
def crossQ (o a b : QPoint) : ℚ :=
  (a.1 - o.1) * (b.2 - o.2) - (a.2 - o.2) * (b.1 - o.1)

/-- Edges of a closed rational-coordinate ring. -/
def edgesQ (pts : List QPoint) : List (QPoint × QPoint) := pts.zip pts.tail

/-- Point `p` lies on the closed segment from `a` to `b`. -/
def onSeg (a b p : QPoint) : Bool :=
  decide (crossQ a b p = 0) && decide (min a.1 b.1 ≤ p.1) && decide (p.1 ≤ max a.1 b.1) &&
  decide (min a.2 b.2 ≤ p.2) && decide (p.2 ≤ max a.2 b.2)

/-- Point `p` lies on the boundary of the ring `pts`. -/
def onBoundary (p : QPoint) (pts : List QPoint) : Bool :=
  (edgesQ pts).any fun e => onSeg e.1 e.2 p

/-- The horizontal rightward ray from `p` crosses the open-bottomed edge
from `a` to `b` (the standard even-odd crossing rule). -/
def edgeCrossesRay (p a b : QPoint) : Bool :=
  if (decide (p.2 < a.2)) != (decide (p.2 < b.2)) then
    decide (p.1 < a.1 + (p.2 - a.2) * (b.1 - a.1) / (b.2 - a.2))
  else false

/-- Number of ring edges crossed by the rightward ray from `p`. -/
def crossings (p : QPoint) (pts : List QPoint) : ℕ :=
  ((edgesQ pts).filter fun e => edgeCrossesRay p e.1 e.2).length

/-- Modelled from the spec: `point.within(polygon)` — true exactly when
the point lies in the interior of the polygon: an odd number of ray
crossings and not on the boundary. -/
def within (p : QPoint) (pts : List QPoint) : Bool :=
  !onBoundary p pts && decide (crossings p pts % 2 = 1)

/-- The rectangle ring of the notebook cells, with the notebook's vertex
order `(x0,y0)-(x0,y1)-(x1,y1)-(x1,y0)`. -/
def rectRing (x0 y0 x1 y1 : ℚ) : List QPoint :=
  [(x0, y0), (x0, y1), (x1, y1), (x1, y0), (x0, y0)]

theorem edgesQ_rectRing (x0 y0 x1 y1 : ℚ) :
    edgesQ (rectRing x0 y0 x1 y1) =
      [((x0, y0), (x0, y1)), ((x0, y1), (x1, y1)),
       ((x1, y1), (x1, y0)), ((x1, y0), (x0, y0))] := rfl

theorem cross_left (x0 y0 y1 px py : ℚ) (hy : y0 < y1) :
    edgeCrossesRay (px, py) (x0, y0) (x0, y1)
      = (decide (y0 ≤ py) && decide (py < y1) && decide (px < x0)) := by
  unfold edgeCrossesRay
  simp only [sub_self, mul_zero, zero_mul, zero_div, add_zero]
  by_cases h0 : py < y0 <;> by_cases h1 : py < y1 <;>
    simp [h0, h1] <;> first | linarith | (intro h; linarith)

theorem cross_right (x1 y0 y1 px py : ℚ) (hy : y0 < y1) :
    edgeCrossesRay (px, py) (x1, y1) (x1, y0)
      = (decide (y0 ≤ py) && decide (py < y1) && decide (px < x1)) := by
  unfold edgeCrossesRay
  simp only [sub_self, mul_zero, zero_mul, zero_div, add_zero]
  by_cases h0 : py < y0 <;> by_cases h1 : py < y1 <;>
    simp [h0, h1] <;> first | linarith | (intro h; linarith)

theorem cross_horizontal (xa xb yh px py : ℚ) :
    edgeCrossesRay (px, py) (xa, yh) (xb, yh) = false := by
  unfold edgeCrossesRay
  simp

theorem crossings_rect (x0 y0 x1 y1 px py : ℚ) (hx : x0 < x1) (hy : y0 < y1) :
    crossings (px, py) (rectRing x0 y0 x1 y1) % 2 = 1 ↔
      (x0 ≤ px ∧ px < x1 ∧ y0 ≤ py ∧ py < y1) := by
  unfold crossings
  rw [edgesQ_rectRing]
  simp only [List.filter, cross_left x0 y0 y1 px py hy, cross_right x1 y0 y1 px py hy,
    cross_horizontal]
  by_cases hA : y0 ≤ py
  · by_cases hB : py < y1
    · by_cases hC : px < x0
      · have hC' : px < x1 := by linarith
        simp [hA, hB, hC, hC']
      · by_cases hD : px < x1
        · simp [hA, hB, hC, hD]
          linarith
        · simp [hA, hB, hC, hD]
    · simp [hB]
  · simp [hA]

theorem onBoundary_rect_of_strict (x0 y0 x1 y1 px py : ℚ)
    (h1 : x0 < px) (h2 : px < x1) (h3 : y0 < py) (h4 : py < y1) :
    onBoundary (px, py) (rectRing x0 y0 x1 y1) = false := by
  unfold onBoundary
  rw [edgesQ_rectRing]
  simp only [List.any_cons, List.any_nil, Bool.or_false, Bool.or_eq_false_iff]
  refine ⟨?_, ?_, ?_, ?_⟩ <;>
    · unfold onSeg crossQ
      simp only [Bool.and_eq_false_iff, decide_eq_false_iff_not]
      left; left; left; left
      intro h
      nlinarith

theorem onBoundary_rect_left (x0 y0 x1 y1 py : ℚ)
    (h3 : y0 ≤ py) (h4 : py ≤ y1) :
    onBoundary (x0, py) (rectRing x0 y0 x1 y1) = true := by
  unfold onBoundary
  rw [edgesQ_rectRing]
  simp only [List.any_cons, List.any_nil, Bool.or_false, Bool.or_eq_true]
  left
  unfold onSeg crossQ
  simp only [Bool.and_eq_true, decide_eq_true_eq]
  refine ⟨⟨⟨⟨by ring, by simp⟩, by simp⟩, by simp [min_le_iff]; left; exact h3⟩, ?_⟩
  simp [le_max_iff]
  right; exact h4

theorem onBoundary_rect_bottom (x0 y0 x1 y1 px : ℚ)
    (h1 : x0 ≤ px) (h2 : px ≤ x1) :
    onBoundary (px, y0) (rectRing x0 y0 x1 y1) = true := by
  unfold onBoundary
  rw [edgesQ_rectRing]
  simp only [List.any_cons, List.any_nil, Bool.or_false, Bool.or_eq_true]
  right; right; right
  unfold onSeg crossQ
  simp only [Bool.and_eq_true, decide_eq_true_eq]
  refine ⟨⟨⟨⟨by ring, by simp [min_le_iff]; right; exact h1⟩, ?_⟩, by simp⟩, by simp⟩
  simp [le_max_iff]
  left; exact h2

/-- C3 -- for every rectangle ring with the notebook's vertex order, the
`within` predicate holds at a point exactly when the point lies strictly
inside the rectangle; in particular it holds at interior points and fails
at exterior (and boundary) points. -/
theorem within_rectRing_iff (x0 y0 x1 y1 : ℚ) (hx : x0 < x1) (hy : y0 < y1)
    (px py : ℚ) :
    within (px, py) (rectRing x0 y0 x1 y1) = true ↔
      (x0 < px ∧ px < x1 ∧ y0 < py ∧ py < y1) := by
  unfold within
  simp only [Bool.and_eq_true, Bool.not_eq_true', decide_eq_true_eq]
  constructor
  · rintro ⟨hbd, hodd⟩
    obtain ⟨ha, hb, hc, hd⟩ := (crossings_rect x0 y0 x1 y1 px py hx hy).mp hodd
    have hpx : x0 ≠ px := by
      intro h
      rw [← h, onBoundary_rect_left x0 y0 x1 y1 py hc (le_of_lt hd)] at hbd
      exact absurd hbd (by simp)
    have hpy : y0 ≠ py := by
      intro h
      rw [← h, onBoundary_rect_bottom x0 y0 x1 y1 px ha (le_of_lt hb)] at hbd
      exact absurd hbd (by simp)
    exact ⟨lt_of_le_of_ne ha hpx, hb, lt_of_le_of_ne hc hpy, hd⟩
  · rintro ⟨h1, h2, h3, h4⟩
    exact ⟨onBoundary_rect_of_strict x0 y0 x1 y1 px py h1 h2 h3 h4,
      (crossings_rect x0 y0 x1 y1 px py hx hy).mpr
        ⟨le_of_lt h1, h2, le_of_lt h3, h4⟩⟩

/-- C3 (witness) -- on the notebook's rectangle `(0,0)-(0,2)-(2,2)-(2,0)`,
the interior point `(1,1)` is within and the exterior point `(3,3)` is
not. -/
theorem within_rectRing_witness :
    within (1, 1) (rectRing 0 0 2 2) = true ∧
    within (3, 3) (rectRing 0 0 2 2) = false := by
  constructor
  · exact (within_rectRing_iff 0 0 2 2 (by norm_num) (by norm_num) 1 1).mpr
      (by norm_num)
  · rw [Bool.eq_false_iff]
    intro hn
    have h := (within_rectRing_iff 0 0 2 2 (by norm_num) (by norm_num) 3 3).mp hn
    norm_num at h

/-! ## CRS reprojection round trip (03-Shapely.ipynb, 04-GeoPandas.ipynb)

Modelled from the spec: "reprojection is a pure coordinate transform".
The transform pair of the GeoPandas cell (geographic coordinates to
EPSG:3857 spherical-Mercator metres and back), as real-valued functions of
longitude and latitude in radians. -/

open Real in
/-- The spherical-Mercator Earth radius in metres. -/
noncomputable def webMercR : ℝ := 6378137

open Real in
/-- Modelled from the spec: the forward transform of `to_crs(epsg=3857)` —
geographic (radian) coordinates to spherical-Mercator metres. -/
noncomputable def webMercForward (lonlat : ℝ × ℝ) : ℝ × ℝ :=
  (webMercR * lonlat.1, webMercR * Real.log (Real.tan (π / 4 + lonlat.2 / 2)))

open Real in
/-- The inverse transform, spherical-Mercator metres back to geographic
(radian) coordinates. -/
noncomputable def webMercInverse (xy : ℝ × ℝ) : ℝ × ℝ :=
  (xy.1 / webMercR, 2 * Real.arctan (Real.exp (xy.2 / webMercR)) - π / 2)

open Real in
theorem webMerc_roundtrip (lon lat : ℝ)
    (h1 : -(π / 2) < lat) (h2 : lat < π / 2) :
    webMercInverse (webMercForward (lon, lat)) = (lon, lat) := by
  unfold webMercForward webMercInverse webMercR
  have hR : (6378137 : ℝ) ≠ 0 := by norm_num
  have hθ1 : 0 < π / 4 + lat / 2 := by
    have := Real.pi_pos
    linarith
  have hθ2 : π / 4 + lat / 2 < π / 2 := by linarith
  have htan : 0 < Real.tan (π / 4 + lat / 2) :=
    Real.tan_pos_of_pos_of_lt_pi_div_two hθ1 hθ2
  simp only
  rw [mul_div_cancel_left₀ _ hR, mul_div_cancel_left₀ _ hR,
    Real.exp_log htan, Real.arctan_tan (by linarith [Real.pi_pos]) hθ2]
  rw [Prod.mk.injEq]
  constructor
  · rfl
  · ring

open Real in
/-- C4 -- for every geometry (point list) whose latitudes lie strictly
between the poles, transforming to the target CRS and applying the inverse
transform back returns exactly the original coordinates (in particular
within every numerical tolerance). -/
theorem webMerc_roundtrip_geometry (poly : List (ℝ × ℝ))
    (h : ∀ p ∈ poly, -(π / 2) < p.2 ∧ p.2 < π / 2) :
    (poly.map webMercForward).map webMercInverse = poly := by
  rw [List.map_map]
  have hid : ∀ p ∈ poly, (webMercInverse ∘ webMercForward) p = id p := by
    intro p hp
    exact webMerc_roundtrip p.1 p.2 (h p hp).1 (h p hp).2
  rw [List.map_congr_left hid, List.map_id]

open Real in
/-- C4 (witness) -- the round trip is the identity on a concrete
two-point geometry. -/
theorem webMerc_roundtrip_geometry_witness :
    (([((0 : ℝ), (0 : ℝ)), (1 / 2, 1 / 2)].map webMercForward).map webMercInverse)
      = [((0 : ℝ), (0 : ℝ)), (1 / 2, 1 / 2)] := by
  refine webMerc_roundtrip_geometry _ ?_
  intro p hp
  have h3 := Real.pi_gt_three
  rcases List.mem_cons.mp hp with rfl | hp'
  · constructor <;> simp <;> linarith
  · rcases List.mem_cons.mp hp' with rfl | hp''
    · constructor <;> simp <;> linarith
    · exact absurd hp'' (List.not_mem_nil p)

/-! ## Raster grids, resampling and reprojection
(01-Pandas.ipynb raster section, 06-XArray.ipynb)

A raster grid: a declared shape, per-pixel values, and a declared CRS. -/

/-- The declared interpolation policies of the spec's resample contract. -/
inductive Resampling
  | nearest
  | bilinear
deriving DecidableEq

structure Raster where
  height : ℕ
  width : ℕ
  data : ℕ → ℕ → ℚ
  crs : String

/-- Modelled from the spec: `src.read(out_shape=(outH, outW),
resampling=…)` — a grid of exactly the requested shape, its values drawn
from the source under the declared interpolation policy (nearest picks the
scaled source pixel, bilinear averages the 2×2 source neighbourhood), with
the source's CRS. -/
def readOutShape (src : Raster) (outH outW : ℕ) (pol : Resampling) : Raster :=
  { height := outH
    width := outW
    data := fun i j =>
      let si := i * src.height / max outH 1
      let sj := j * src.width / max outW 1
      match pol with
      | .nearest => src.data si sj
      | .bilinear =>
          (src.data si sj + src.data (si + 1) sj +
           src.data si (sj + 1) + src.data (si + 1) (sj + 1)) / 4
    crs := src.crs }

/-- The notebook's resampling cell: `src.read(1, out_shape=(src.height //
resampling_factor, src.width // resampling_factor), resampling=…)`. -/
def resampleByFactor (src : Raster) (F : ℕ) (pol : Resampling) : Raster :=
  readOutShape src (src.height / F) (src.width / F) pol

/-- Modelled from the spec: `ds.rio.reproject(targetCrs, shape=…,
resampling=…)` — resample to the given shape and re-tag with the target
CRS. -/
def reproject (g : Raster) (targetCrs : String) (outH outW : ℕ)
    (pol : Resampling) : Raster :=
  { readOutShape g outH outW pol with crs := targetCrs }

/-- The 06-XArray cell `ds.rio.reproject(ds.rio.crs, shape=(new_height,
new_width), resampling=Resampling.bilinear)`: the target CRS is the
dataset's own CRS. -/
def resampleViaReproject (g : Raster) (outH outW : ℕ) (pol : Resampling) : Raster :=
  reproject g g.crs outH outW pol

/-- C5 -- resampling a grid by a positive integer factor `F` produces a
grid of dimensions exactly `(height / F, width / F)` in floor division:
the output dimensions are the unique naturals with `out * F ≤ input <
(out + 1) * F`. -/
theorem resampleByFactor_dims (src : Raster) (F : ℕ) (pol : Resampling)
    (hF : 0 < F) :
    (resampleByFactor src F pol).height = src.height / F ∧
    (resampleByFactor src F pol).width = src.width / F ∧
    (resampleByFactor src F pol).height * F ≤ src.height ∧
    src.height < ((resampleByFactor src F pol).height + 1) * F ∧
    (resampleByFactor src F pol).width * F ≤ src.width ∧
    src.width < ((resampleByFactor src F pol).width + 1) * F := by
  have floorlt : ∀ h : ℕ, h < (h / F + 1) * F := by
    intro h
    have hmod : h % F < F := Nat.mod_lt _ hF
    calc h = F * (h / F) + h % F := (Nat.div_add_mod _ _).symm
      _ < F * (h / F) + F := Nat.add_lt_add_left hmod _
      _ = (h / F + 1) * F := by ring
  exact ⟨rfl, rfl, Nat.div_mul_le_self _ _, floorlt src.height,
    Nat.div_mul_le_self _ _, floorlt src.width⟩

/-- A stand-in for the Nairobi elevation raster, resampled by the
notebook's factor 32. -/
def nairobiLike : Raster :=
  { height := 100, width := 65, data := fun _ _ => 0, crs := "EPSG:4326" }

/-- C5 (witness) -- a 100×65 grid resampled by factor 32 has shape
(3, 2). -/
theorem resampleByFactor_dims_witness :
    (resampleByFactor nairobiLike 32 Resampling.bilinear).height = 3 ∧
    (resampleByFactor nairobiLike 32 Resampling.bilinear).width = 2 ∧
    (resampleByFactor nairobiLike 32 Resampling.bilinear).height * 32 ≤ 100 ∧
    (100 : ℕ) < ((resampleByFactor nairobiLike 32 Resampling.bilinear).height + 1) * 32 ∧
    (resampleByFactor nairobiLike 32 Resampling.bilinear).width * 32 ≤ 65 ∧
    (65 : ℕ) < ((resampleByFactor nairobiLike 32 Resampling.bilinear).width + 1) * 32 :=
  resampleByFactor_dims nairobiLike 32 Resampling.bilinear (by norm_num)

/-- C8 -- every resample (by requested output shape, by integer factor, or
through the notebook's reproject-to-own-CRS call) leaves the declared CRS
of the grid unchanged, for either interpolation policy. -/
theorem resample_preserves_crs :
    ∀ (g : Raster) (outH outW F : ℕ) (pol : Resampling),
      (readOutShape g outH outW pol).crs = g.crs ∧
      (resampleByFactor g F pol).crs = g.crs ∧
      (resampleViaReproject g outH outW pol).crs = g.crs :=
  fun _ _ _ _ _ => ⟨rfl, rfl, rfl⟩

/-! ## Raster crop / mask (01-Pandas.ipynb raster section)

`rio_mask(src, geometry, nodata=0.0, crop=True)`, modelled from the spec:
"produce a new raster grid restricted to pixels overlapping the polygon,
with excluded pixels set to a declared no-data sentinel", the crop window
being the polygon's bounding box.  The grid is laid on an identity
geotransform: pixel (row `i`, column `j`) has its centre at rational
coordinates `(j + 1/2, i + 1/2)`. -/

/-- Centre coordinate of pixel (row `i`, column `j`). -/
def pixCenter (i j : ℕ) : QPoint := ((j : ℚ) + 1 / 2, (i : ℚ) + 1 / 2)

/-- Bounding box `(xmin, ymin, xmax, ymax)` of a ring's vertices. -/
def bboxOf (ring : List QPoint) : ℚ × ℚ × ℚ × ℚ :=
  match ring with
  | [] => (0, 0, 0, 0)
  | p :: ps =>
    ps.foldl (fun acc q =>
      (min acc.1 q.1, min acc.2.1 q.2, max acc.2.2.1 q.1, max acc.2.2.2 q.2))
      (p.1, p.2, p.1, p.2)

/-- The point lies inside the closed box `(xmin, ymin, xmax, ymax)`. -/
def inBBox (p : QPoint) (bb : ℚ × ℚ × ℚ × ℚ) : Bool :=
  decide (bb.1 ≤ p.1) && decide (p.1 ≤ bb.2.2.1) &&
  decide (bb.2.1 ≤ p.2) && decide (p.2 ≤ bb.2.2.2)

/-- The point lies in the closed polygon: interior or boundary. -/
def coveredBy (p : QPoint) (ring : List QPoint) : Bool :=
  within p ring || onBoundary p ring

/-- Modelled from the spec: `rio_mask(src, geometry, nodata, crop=True)` —
the pixels of the crop window (those whose centres fall in the polygon's
bounding box), each holding the source value when its centre lies in the
polygon and the no-data sentinel otherwise, listed as
(row, column, value). -/
def rio_mask (g : Raster) (ring : List QPoint) (nodata : ℚ) :
    List (ℕ × ℕ × ℚ) :=
  ((List.range g.height).map fun i =>
    (List.range g.width).filterMap fun j =>
      if inBBox (pixCenter i j) (bboxOf ring) then
        some (i, j, if coveredBy (pixCenter i j) ring then g.data i j else nodata)
      else none).flatten

/-- C6 -- every pixel of the cropped output lies (by its centre) within
the polygon's bounding box, and every output pixel whose centre falls
outside the polygon holds the declared no-data sentinel. -/
theorem rio_mask_extent_and_nodata (g : Raster) (ring : List QPoint)
    (nodata : ℚ) (i j : ℕ) (v : ℚ)
    (hmem : (i, j, v) ∈ rio_mask g ring nodata) :
    inBBox (pixCenter i j) (bboxOf ring) = true ∧
    (coveredBy (pixCenter i j) ring = false → v = nodata) := by
  simp only [rio_mask, List.mem_flatten, List.mem_map, List.mem_range] at hmem
  obtain ⟨l, ⟨i', hi', hl⟩, hmem2⟩ := hmem
  subst hl
  simp only [List.mem_filterMap, List.mem_range] at hmem2
  obtain ⟨j', hj', hif⟩ := hmem2
  by_cases hbb : inBBox (pixCenter i' j') (bboxOf ring) = true
  · rw [if_pos hbb] at hif
    have h := Option.some.inj hif
    rw [Prod.ext_iff] at h
    obtain ⟨hi, h⟩ := h
    rw [Prod.ext_iff] at h
    obtain ⟨hj, hv⟩ := h
    simp only at hi hj hv
    subst hi; subst hj
    refine ⟨hbb, fun hcov => ?_⟩
    rw [← hv, if_neg (by simp [hcov])]
  · rw [if_neg hbb] at hif
    exact absurd hif (by simp)

/-- A 1×1 stand-in raster holding elevation 7. -/
def elevLike : Raster :=
  { height := 1, width := 1, data := fun _ _ => 7, crs := "EPSG:4326" }

/-- The bounding square `[(0,0),(0,2),(2,2),(2,0),(0,0)]` used as crop
geometry. -/
def cropSquare : List QPoint := [(0, 0), (0, 2), (2, 2), (2, 0), (0, 0)]

theorem rio_mask_elevLike_eval : rio_mask elevLike cropSquare 0 = [(0, 0, 7)] := by
  norm_num [rio_mask, elevLike, cropSquare, inBBox, bboxOf, pixCenter, coveredBy,
    within, onBoundary, crossings, edgesQ, edgeCrossesRay, onSeg, crossQ, List.range,
    List.range.loop, List.filter, List.filterMap_cons, List.filterMap_nil]

/-- C6 (witness) -- the retained pixel of the concrete crop lies in the
polygon's bounding box, and the no-data implication holds for it. -/
theorem rio_mask_extent_and_nodata_witness :
    inBBox (pixCenter 0 0) (bboxOf cropSquare) = true ∧
    (coveredBy (pixCenter 0 0) cropSquare = false → (7 : ℚ) = 0) :=
  rio_mask_extent_and_nodata elevLike cropSquare 0 0 0 7
    (by rw [rio_mask_elevLike_eval]; exact List.mem_singleton.mpr rfl)

/-! ## The loader and its missing-file failure mode (01-Pandas.ipynb)

The notebook guards `pd.read_csv(file_path)` with
`assert file_path.exists(), "The data file does not exist!"`: the load
proceeds only when the path exists.  Modelled from the spec: the loader
"fails with a FileNotFound kind if the path does not exist … fails with a
ParseError kind on malformed input".  The filesystem is a partial map from
paths to raw contents; the format-specific parser is a parameter. -/

inductive LoadError
  | fileNotFound
  | parseError
deriving DecidableEq

/-- Modelled from the spec: the loader contract — check existence of the
path first (the notebook's `assert`), then hand the raw contents to the
format parser. -/
def loadTable (fs : String → Option String)
    (parse : String → Except LoadError (List Row)) (path : String) :
    Except LoadError (List Row) :=
  match fs path with
  | none => .error .fileNotFound
  | some contents => parse contents

/-- C7 -- whenever the path does not exist the load fails with the
FileNotFound kind of error, and the load proceeds (hands the raw contents
to the parser) exactly when the path exists. -/
theorem loadTable_fileNotFound (fs : String → Option String)
    (parse : String → Except LoadError (List Row)) (path : String) :
    (fs path = none → loadTable fs parse path = .error .fileNotFound) ∧
    (∀ c, fs path = some c → loadTable fs parse path = parse c) := by
  constructor
  · intro h
    unfold loadTable
    rw [h]
  · intro c h
    unfold loadTable
    rw [h]

/-- A one-file filesystem holding only the titanic CSV. -/
def titanicFs : String → Option String :=
  fun p => if p = "./data/tabular/titanic.csv" then some "titanic-bytes" else none

/-- C7 (witness) -- loading a missing path fails with FileNotFound, and
loading the existing titanic path hands its contents to the parser. -/
theorem loadTable_fileNotFound_witness :
    loadTable titanicFs (fun _ => .ok []) "./data/missing.csv"
      = .error .fileNotFound ∧
    loadTable titanicFs (fun _ => .ok []) "./data/tabular/titanic.csv"
      = .ok ([] : List Row) :=
  ⟨(loadTable_fileNotFound titanicFs (fun _ => .ok []) "./data/missing.csv").1
      (by simp [titanicFs]),
   (loadTable_fileNotFound titanicFs (fun _ => .ok []) "./data/tabular/titanic.csv").2
      "titanic-bytes" (by simp [titanicFs])⟩

/-! ## Assignment semantics of the transforming cells (04-GeoPandas.ipynb,
01-Pandas.ipynb)

The cited cells bind the result of a transforming call to a (new) name:
`gdf_paris_districts_mercator = gdf_paris_districts.to_crs(epsg=3857)` and
`df[mask]`.  A notebook environment is a stack of name bindings; the
operations themselves are pure functions returning fresh frames. -/

/-- A geometric frame: a declared CRS tag and geometry coordinates. -/
structure GeoFrame where
  crs : String
  rows : List QPoint
deriving DecidableEq

/-- The call `gdf.to_crs(code)`: a fresh frame whose coordinates are re-expressed
under the target CRS by the coordinate transform `f` (geopandas returns a
new GeoDataFrame and leaves its receiver untouched). -/
def to_crs (f : QPoint → QPoint) (code : String) (g : GeoFrame) : GeoFrame :=
  { crs := code, rows := g.rows.map f }

/-- A notebook environment: newest binding first. -/
abbrev Env := List (String × GeoFrame)

/-- The notebook assignment `x = v`. -/
def assign (env : Env) (x : String) (v : GeoFrame) : Env := (x, v) :: env

/-- The Paris districts frame right after loading (WGS 84). -/
def gdf_paris_districts : GeoFrame := { crs := "EPSG:4326", rows := [(2, 48)] }

def parisEnv0 : Env := [("gdf_paris_districts", gdf_paris_districts)]

/-- The cited cell
`gdf_paris_districts_mercator = gdf_paris_districts.to_crs(epsg=3857)`,
run with coordinate transform `f` in environment `env`. -/
def runMercatorCell (f : QPoint → QPoint) (env : Env) : Env :=
  match env.lookup "gdf_paris_districts" with
  | some g => assign env "gdf_paris_districts_mercator" (to_crs f "EPSG:3857" g)
  | none => env

/-- C9 (counterexample) -- after the cited reproject cell the original
binding does NOT hold the transformed content: it still holds the
untouched WGS-84 frame, refuting in-place mutation at this concrete
input. -/
theorem runMercatorCell_not_in_place :
    ¬ (List.lookup "gdf_paris_districts" (runMercatorCell id parisEnv0)
        = some (to_crs id "EPSG:3857" gdf_paris_districts)) ∧
    List.lookup "gdf_paris_districts" (runMercatorCell id parisEnv0)
      = some gdf_paris_districts := by
  constructor
  · decide
  · decide

/-- C9 (amended) -- a transforming call bound to a fresh name returns a
distinct new frame and leaves every existing binding unchanged: the old
name still resolves to its old frame, the new name to the transformed
frame, and when the target CRS differs from the source CRS the two frames
are distinct. -/
theorem assign_returns_new_frame (env : Env) (x y : String) (g v : GeoFrame)
    (f : QPoint → QPoint) (code : String) (hxy : x ≠ y)
    (hx : List.lookup x env = some g) (hcode : code ≠ g.crs) :
    List.lookup x (assign env y v) = some g ∧
    List.lookup y (assign env y v) = some v ∧
    to_crs f code g ≠ g := by
  refine ⟨?_, ?_, ?_⟩
  · have hne : (x == y) = false := beq_eq_false_iff_ne.mpr hxy
    unfold assign
    simp only [List.lookup, hne]
    exact hx
  · unfold assign
    simp [List.lookup]
  · intro h
    exact hcode (congrArg GeoFrame.crs h)

/-- C9 (witness) -- instantiated on the Paris cell: the old binding is
unchanged, the new binding holds the reprojected frame, and the two
frames differ. -/
theorem assign_returns_new_frame_witness :
    List.lookup "gdf_paris_districts"
        (assign parisEnv0 "gdf_paris_districts_mercator"
          (to_crs id "EPSG:3857" gdf_paris_districts))
      = some gdf_paris_districts ∧
    List.lookup "gdf_paris_districts_mercator"
        (assign parisEnv0 "gdf_paris_districts_mercator"
          (to_crs id "EPSG:3857" gdf_paris_districts))
      = some (to_crs id "EPSG:3857" gdf_paris_districts) ∧
    to_crs id "EPSG:3857" gdf_paris_districts ≠ gdf_paris_districts :=
  assign_returns_new_frame parisEnv0 "gdf_paris_districts"
    "gdf_paris_districts_mercator" gdf_paris_districts
    (to_crs id "EPSG:3857" gdf_paris_districts) id "EPSG:3857"
    (by decide) (by decide) (by decide)

end Geoprimer
